import Mathlib

/-!
Verification of the EELS Hartree-Slater GOS core
(`hyperspy/misc/eels/hartree_slater_gos.py`).

The development shallowly embeds the three pieces of the core:

* the subshell convention map (`conventions`, source lines 40-52),
* the table-file token parser (`readgosfile`, source lines 159-180),
* the per-row cross-section integrator (`integrateq`, source lines 182-210).

Exact rational/real arithmetic is used for functional and algebraic claims;
a small IEEE-style extended number type (`NFloat`) over an ordered field is
used for the claims about NaN and infinity propagation, where only the
special-value propagation rules (not rounding) are relevant.

Code of the repository that the claims depend on but that is not part of
the sources at hand (the `GOSBase` helpers `get_qaxis_and_gos`,
`get_parametrized_energy_axis`/`get_parametrized_qaxis`, the external
onset-energy lookup) and the external `scipy.integrate.simps` integrator
are modelled from the specification; each such definition carries a doc
comment starting with `Modelled from the spec:`.
-/

set_option autoImplicit false
set_option linter.unusedSectionVars false

namespace HSQ

/-- Convention map from subshell label to (table name, multiplicity factor),
embedding the `conventions` dictionary of `hartree_slater_gos.py`
(lines 40-52).  Factors are kept as exact rationals; the Python source
writes them as `3/2`, `1/2`, `5/3`, ... (true division). -/
def conventions : String → Option (String × ℚ)
  | "K" => some ("K1", 1)
  | "L1" => some ("L1", 1)
  | "L2,3" => some ("L3", 3/2)
  | "L2" => some ("L3", 1/2)
  | "L3" => some ("L3", 1)
  | "M1" => some ("M1", 1)
  | "M2,3" => some ("M3", 3/2)
  | "M2" => some ("M3", 1/2)
  | "M3" => some ("M3", 1)
  | "M4,5" => some ("M5", 5/3)
  | "M4" => some ("M5", 2/3)
  | "M5" => some ("M5", 1)
  | "N1" => some ("N1", 1)
  | "N2,3" => some ("N3", 3/2)
  | "N2" => some ("N3", 1/2)
  | "N3" => some ("N3", 1)
  | "N4,5" => some ("N5", 5/3)
  | "N4" => some ("N5", 2/3)
  | "N5" => some ("N5", 1)
  | "N6,7" => some ("N7", 7/4)
  | "N6" => some ("N7", 4/7)
  | "N7" => some ("N7", 1)
  | "O1" => some ("O1", 1)
  | "O2,3" => some ("O3", 3/2)
  | "O2" => some ("O3", 1/2)
  | "O3" => some ("O3", 1)
  | "O4,5" => some ("O5", 5/3)
  | "O4" => some ("O5", 2/3)
  | "O5" => some ("O5", 1)
  | _ => none

/-- The multiplicity factor a subshell label resolves to
(`conventions[subshell]['factor']`, line 129), with `0` for labels that
are not in the map. -/
def factorOf (s : String) : ℚ := ((conventions s).map Prod.snd).getD 0

/-- Rydberg constant times hc in eV
(`scipy.constants.value("Rydberg constant times hc in eV")`, line 34),
as the exact rational value of the CODATA decimal. -/
def Rq : ℚ := 13605693122994 / 10^12

/-- The raw data `readgosfile` extracts from the token list of a table
file (lines 163-172): the two q-axis coefficients (`info1_1`, `info1_2`),
the column count, the two energy-axis coefficients (`info2_1`,
`info2_2`), the row count, and the GOS matrix (already divided by the
Rydberg constant). -/
structure RawTable where
  info1_1 : ℚ
  info1_2 : ℚ
  ncol : ℤ
  info2_1 : ℚ
  info2_2 : ℚ
  nrow : ℤ
  gos : List (List ℚ)
  deriving DecidableEq

/-- Split a flat vector into `r` consecutive rows of `n` entries each
(row-major order, as `numpy.reshape` lays a C-ordered vector out). -/
def chunkRows (n : ℕ) : ℕ → List ℚ → List (List ℚ)
  | 0, _ => []
  | r + 1, vals => vals.take n :: chunkRows n r (vals.drop n)

/-- Model of `numpy.ndarray.reshape(nrow, ncol)` on a flat vector
(line 172).  With nonnegative dimensions numpy requires the total size to
equal `nrow * ncol`; a `-1` dimension is inferred from the other
dimension (which must be positive and divide the size); any other
negative dimension is rejected.  `none` models the `ValueError` numpy
raises. -/
def npReshape (vals : List ℚ) (nrow ncol : ℤ) : Option (List (List ℚ)) :=
  if 0 ≤ nrow ∧ 0 ≤ ncol then
    if (vals.length : ℤ) = nrow * ncol then
      some (chunkRows ncol.toNat nrow.toNat vals)
    else none
  else if nrow = -1 ∧ 0 < ncol then
    if (ncol ∣ (vals.length : ℤ)) then
      some (chunkRows ncol.toNat (vals.length / ncol.toNat) vals)
    else none
  else if ncol = -1 ∧ 0 < nrow then
    if ((nrow : ℤ) ∣ (vals.length : ℤ)) then
      some (chunkRows (vals.length / nrow.toNat) nrow.toNat vals)
    else none
  else none

/-- Parse every token of a list, failing if any token fails to parse;
this embeds `np.array(GOS_list[9:], dtype=float)` (line 169). -/
def parseAll (pF : String → Option ℚ) : List String → Option (List ℚ)
  | [] => some []
  | t :: ts => do
    let v ← pF t
    let vs ← parseAll pF ts
    some (v :: vs)

/-- Token-level embedding of `HartreeSlaterGOS.readgosfile`
(lines 159-173).  The file contents have already been split into
whitespace-delimited tokens (`f.read().replace('\r', '').split()`,
line 160).  The numeric parsers `pF` (Python `float`) and `pZ` (Python
`int`) are taken as parameters; `none` models the exceptions the source
raises (`IndexError` on a missing token, `ValueError` from `float`/`int`
or from `reshape`).  Token positions and the division of the GOS matrix
by the Rydberg constant mirror lines 163-172. -/
def readgosfile (pF : String → Option ℚ) (pZ : String → Option ℤ)
    (tokens : List String) : Option RawTable := do
  let info1_1 ← (tokens[2]?).bind pF
  let info1_2 ← (tokens[3]?).bind pF
  let ncol ← (tokens[5]?).bind pZ
  let info2_1 ← (tokens[6]?).bind pF
  let info2_2 ← (tokens[7]?).bind pF
  let nrow ← (tokens[8]?).bind pZ
  let vals ← parseAll pF (tokens.drop 9)
  let rows ← npReshape vals nrow ncol
  some { info1_1 := info1_1, info1_2 := info1_2, ncol := ncol,
         info2_1 := info2_1, info2_2 := info2_2, nrow := nrow,
         gos := rows.map (fun r => r.map (· / Rq)) }

/-- Claim-side condition (C7 wording): every required token parses as a
number — the q-axis coefficients (tokens 2, 3), the column count
(token 5), the energy-axis coefficients (tokens 6, 7), the row count
(token 8) and all matrix entries (tokens 9 and onward). -/
def requiredTokensParse (pF : String → Option ℚ) (pZ : String → Option ℤ)
    (tokens : List String) : Prop :=
  ((tokens[2]?).bind pF).isSome ∧ ((tokens[3]?).bind pF).isSome ∧
  ((tokens[5]?).bind pZ).isSome ∧ ((tokens[6]?).bind pF).isSome ∧
  ((tokens[7]?).bind pF).isSome ∧ ((tokens[8]?).bind pZ).isSome ∧
  ∀ t ∈ tokens.drop 9, (pF t).isSome

/-- Claim-side condition (C7 wording): on success the parsed fields sit
at the stated token positions and the GOS matrix is the row-major
N-by-M chunking of the remaining tokens, each entry divided by the
Rydberg constant. -/
def readgosfileLayoutOK (pF : String → Option ℚ) (pZ : String → Option ℤ)
    (tokens : List String) (N M : ℤ) : Prop :=
  ∀ rt, readgosfile pF pZ tokens = some rt →
    rt.ncol = M ∧ rt.nrow = N ∧
    (tokens[2]?).bind pF = some rt.info1_1 ∧
    (tokens[3]?).bind pF = some rt.info1_2 ∧
    (tokens[6]?).bind pF = some rt.info2_1 ∧
    (tokens[7]?).bind pF = some rt.info2_2 ∧
    ∃ vals, parseAll pF (tokens.drop 9) = some vals ∧
      (vals.length : ℤ) = N * M ∧
      rt.gos = (chunkRows M.toNat N.toNat vals).map (fun r => r.map (· / Rq))

/-- Digit value of a character, `none` for non-digits. -/
def digit? (c : Char) : Option ℕ :=
  if c = '0' then some 0 else if c = '1' then some 1 else if c = '2' then some 2
  else if c = '3' then some 3 else if c = '4' then some 4 else if c = '5' then some 5
  else if c = '6' then some 6 else if c = '7' then some 7 else if c = '8' then some 8
  else if c = '9' then some 9 else none

/-- Accumulate a decimal numeral, `none` on any non-digit. -/
def natOfDigits : List Char → ℕ → Option ℕ
  | [], acc => some acc
  | c :: cs, acc => (digit? c).bind fun d => natOfDigits cs (acc * 10 + d)

/-- A toy integer parser (decimal literals with optional minus sign)
standing in for Python `int` in concrete instances. -/
def pZ0 (s : String) : Option ℤ :=
  match s.toList with
  | [] => none
  | '-' :: cs => if cs = [] then none else (natOfDigits cs 0).map (fun n => -(n : ℤ))
  | cs => (natOfDigits cs 0).map (fun n => (n : ℤ))

/-- A toy numeric parser standing in for Python `float` in concrete
instances (parses integer literals only). -/
def pF0 (s : String) : Option ℚ := (pZ0 s).map (fun z => (z : ℚ))

/-- A concrete malformed-by-count token list whose row-count token is
`-1`: numpy's reshape dimension inference makes loading succeed even
though the token count is not `9 + N*M`. -/
def toksBad : List String :=
  ["e", "t", "1", "1", "x", "1", "1", "1", "-1", "5", "7"]

/-- A concrete well-formed token list with `N = 2` rows and `M = 2`
columns. -/
def toksOK : List String :=
  ["e", "t", "1", "2", "x", "2", "1", "1", "2", "1", "2", "3", "4"]

/-- A GOS table as constructed by the loader or from an exported
dictionary: the attributes assigned by `readgosfile` (lines 169-180),
`read_elements` (line 129) and `_load_dictionary` (lines 116-118), over
exact rationals. -/
structure GOSTableQ where
  element : String
  subshell : String
  onset_energy : ℚ
  rel_energy_axis : List ℚ
  energy_axis : List ℚ
  qaxis : List ℚ
  gos_array : List (List ℚ)
  subshell_factor : ℚ
  deriving DecidableEq

/-- Table construction from parsed raw data (lines 174-180 of
`readgosfile`): the relative energy axis and the q axis are produced by
the parametrized axis generators from the header coefficients, and
`energy_axis = rel_energy_axis + onset_energy` elementwise (line 180).
The generators `axE`/`axQ` stand for `GOSBase.get_parametrized_energy_axis`
and `GOSBase.get_parametrized_qaxis`, which are not among the sources at
hand; the spec (section 4.2) treats their exact form as an external
modelling convention, so they are parameters here. -/
def mkTable (rt : RawTable) (axE axQ : ℚ → ℚ → ℕ → List ℚ)
    (el sub : String) (onset factor : ℚ) : GOSTableQ :=
  let rel := axE rt.info2_1 rt.info2_2 rt.nrow.toNat
  { element := el, subshell := sub, onset_energy := onset,
    rel_energy_axis := rel,
    energy_axis := rel.map (· + onset),
    qaxis := axQ rt.info1_1 rt.info1_2 rt.ncol.toNat,
    gos_array := rt.gos,
    subshell_factor := factor }

/-- The whitelisted fields of an exported GOS dictionary
(`_whitelist`, lines 100-105). -/
structure GOSDict where
  gos_array : List (List ℚ)
  rel_energy_axis : List ℚ
  qaxis : List ℚ
  element : String
  subshell : String
  deriving DecidableEq

/-- Reconstruction from an exported dictionary (`_load_dictionary`,
lines 116-118): the whitelisted fields are copied and `energy_axis` is
recomputed as `rel_energy_axis + onset_energy` (line 118), where the
onset energy comes from the external elements lookup performed by
`read_elements`. -/
def loadFromDict (d : GOSDict) (onset factor : ℚ) : GOSTableQ :=
  { element := d.element, subshell := d.subshell, onset_energy := onset,
    rel_energy_axis := d.rel_energy_axis,
    energy_axis := d.rel_energy_axis.map (· + onset),
    qaxis := d.qaxis,
    gos_array := d.gos_array,
    subshell_factor := factor }

/-- File-system actions `__init__` can perform, in order; used to state
that an unknown-subshell failure happens before any file is located or
opened. -/
inductive FileOp
  | checkDir (path : String)
  | openFile (path : String)
  deriving DecidableEq

/-- The exceptions of the construction path: `ValueError` from the
two-element unpacking of `element_subshell.split('_')` (line 112),
`KeyError` from `conventions[self.subshell]` (line 129),
`FileNotFoundError` for a missing directory (lines 151-157) or file
(line 159), and the `ValueError`/`IndexError` family from token parsing
(lines 163-172). -/
inductive HSErr
  | splitError
  | unknownSubshell
  | dirNotFound
  | fileNotFound
  | malformedTable
  deriving DecidableEq

/-- Split a character list at every underscore, as Python
`str.split('_')` does. -/
def splitUnderscore : List Char → List (List Char)
  | [] => [[]]
  | c :: cs =>
    let rest := splitUnderscore cs
    if c = '_' then [] :: rest
    else (c :: rest.headD []) :: rest.tail

/-- Python `element_subshell.split('_')` (line 112) as a list of
strings. -/
def pySplitUnderscore (s : String) : List String :=
  (splitUnderscore s.toList).map String.mk

/-- Embedding of `HartreeSlaterGOS.__init__` on a string argument
(lines 111-114), paired with the list of file operations performed, in
order.  `lookupOnset` models the external elements database consulted by
`super().read_elements()` (spec section 6: an external collaborator
returning the onset energy); `dirOK` models the
`preferences.EELS.eels_gos_files_path` directory check and `fs` the
token contents of files (lines 144-160).  `read_elements`
(lines 127-129) runs before `readgosfile` (lines 113-114), so the
conventions lookup failure (`KeyError`, modelled as `unknownSubshell`)
precedes every file operation. -/
def hsInit (lookupOnset : String → String → ℚ)
    (pF : String → Option ℚ) (pZ : String → Option ℤ)
    (axE axQ : ℚ → ℚ → ℕ → List ℚ)
    (gosPath : String) (dirOK : Bool) (fs : String → Option (List String))
    (element_subshell : String) : Except HSErr GOSTableQ × List FileOp :=
  match pySplitUnderscore element_subshell with
  | [el, sub] =>
    let onset := lookupOnset el sub
    match conventions sub with
    | none => (.error .unknownSubshell, [])
    | some (tbl, factor) =>
      let file := gosPath ++ "/" ++ el ++ "." ++ tbl
      if !dirOK then (.error .dirNotFound, [.checkDir gosPath])
      else
        match fs file with
        | none => (.error .fileNotFound, [.checkDir gosPath, .openFile file])
        | some tokens =>
          match readgosfile pF pZ tokens with
          | none => (.error .malformedTable, [.checkDir gosPath, .openFile file])
          | some rt =>
            (.ok (mkTable rt axE axQ el sub onset factor),
             [.checkDir gosPath, .openFile file])
  | _ => (.error .splitError, [])

/-- Embedding of `__init__` on a dictionary argument (lines 106-110):
`read_elements` runs before `_load_dictionary`, and no file operation is
ever performed on this path. -/
def hsInitDict (lookupOnset : String → String → ℚ) (d : GOSDict) :
    Except HSErr GOSTableQ × List FileOp :=
  let onset := lookupOnset d.element d.subshell
  match conventions d.subshell with
  | none => (.error .unknownSubshell, [])
  | some (_, factor) => (.ok (loadFromDict d onset factor), [])

/-- A trivial axis generator for concrete instances. -/
def axTriv : ℚ → ℚ → ℕ → List ℚ := fun a b n => List.replicate n (a + b)

end HSQ

namespace HS

/-- Rydberg constant times hc in eV (line 34), as a real number. -/
noncomputable def R : ℝ := 13605693122994 / 10^12

/-- Bohr radius in m (`scipy.constants.value("Bohr radius")`, line 35). -/
noncomputable def a0 : ℝ := 529177210903 / 10^22

/-- A constructed GOS table over the reals: the attributes of a
`HartreeSlaterGOS` instance read by `integrateq` (lines 182-210). -/
structure GOSTable where
  element : String
  subshell : String
  onset_energy : ℝ
  rel_energy_axis : List ℝ
  energy_axis : List ℝ
  qaxis : List ℝ
  gos_array : List (List ℝ)
  subshell_factor : ℝ

section GenericExtraction

variable {K : Type} [LinearOrderedField K]

/-- Modelled from the spec: linear interpolation of a tabulated row at an
arbitrary point, extrapolating from the first/last segment outside the
tabulated range.  `GOSBase.get_qaxis_and_gos` is not among the sources at
hand; its docstring (lines 72-75) says it uses "linear interpolation to
include qmin and qmax in the range", and the spec design notes state that
the source "clamps/extrapolates q-range interpolation implicitly via
array interpolation without explicit bounds checking". -/
def interpRow : List K → List K → K → K
  | [q1, q2], [g1, g2], q => g1 + (g2 - g1) * (q - q1) / (q2 - q1)
  | q1 :: q2 :: q3 :: qs, g1 :: g2 :: g3 :: gs, q =>
    if q < q2 then g1 + (g2 - g1) * (q - q1) / (q2 - q1)
    else interpRow (q2 :: q3 :: qs) (g2 :: g3 :: gs) q
  | _, _, _ => 0

/-- Modelled from the spec: `GOSBase.get_qaxis_and_gos(ienergy, qmin, qmax)`
(called at line 202; defined in `base_gos.py`, not among the sources at
hand).  Per its docstring (lines 72-75) it returns the q axis and GOS row
between `qmin` and `qmax`, synthesizing the values at `qmin` and `qmax` by
linear interpolation, with no bounds check against the tabulated range
(spec design notes: out-of-range values are implicitly
interpolated/extrapolated, never an error).  `qaxis` is `self.qaxis` and
`row` is `self.gos_array[ienergy]`. -/
def get_qaxis_and_gos (qaxis row : List K) (qmin qmax : K) :
    List K × List K :=
  let mid := (qaxis.zip row).filter
    (fun p => decide (qmin < p.1) && decide (p.1 < qmax))
  let pts := (qmin, interpRow qaxis row qmin) ::
    (mid ++ [(qmax, interpRow qaxis row qmax)])
  (pts.map Prod.fst, pts.map Prod.snd)

/-- Trapezoid over one interval. -/
def trapSeg (x0 x1 y0 y1 : K) : K := (x1 - x0) * (y0 + y1) / 2

/-- Modelled from the spec: one Simpson segment over two adjacent
intervals of possibly different widths — the integral of the quadratic
through the three samples. -/
def simpSeg (x0 x1 x2 y0 y1 y2 : K) : K :=
  let h0 := x1 - x0
  let h1 := x2 - x1
  (h0 + h1) / 6 *
    ((2 - h1 / h0) * y0 + (h0 + h1)^2 / (h0 * h1) * y1 + (2 - h0 / h1) * y2)

/-- Modelled from the spec: composite Simpson integrator of samples `ys`
at abscissae `xs` (`scipy.integrate.simps(gos, logsqa0qaxis)`, line 204,
an external collaborator): consecutive interval pairs are integrated by
Simpson segments, with a trapezoidal correction on the last interval when
the sample count is even (spec section 4.3 step 4). -/
def simps : List K → List K → K
  | y0 :: y1 :: y2 :: ys, x0 :: x1 :: x2 :: xs =>
    simpSeg x0 x1 x2 y0 y1 y2 + simps (y2 :: ys) (x2 :: xs)
  | [y0, y1], [x0, x1] => trapSeg x0 x1 y0 y1
  | _, _ => 0

end GenericExtraction

/-- Relativistic `gamma` (line 188). -/
noncomputable def gammaOf (E0 : ℝ) : ℝ := 1 + E0 / 511.06

/-- The kinetic-energy-like term `T` (line 189). -/
noncomputable def TOf (E0 : ℝ) : ℝ := 511060 * (1 - 1 / gammaOf E0 ^ 2) / 2

/-- `qa0sqmin` (lines 193-194). -/
noncomputable def qa0sqminOf (E g T : ℝ) : ℝ :=
  E^2 / (4 * R * T) + E^3 / (8 * g^3 * R * T^2)

/-- `p02` (line 195). -/
noncomputable def p02Of (T : ℝ) : ℝ := T / (R * (1 - 2 * T / 511060))

/-- `pp2` (line 196). -/
noncomputable def pp2Of (E g T : ℝ) : ℝ := p02Of T - E / R * (g - E / 1022120)

/-- `qa0sqmax` (lines 197-198). -/
noncomputable def qa0sqmaxOf (E g T theta : ℝ) : ℝ :=
  qa0sqminOf E g T + 4 * Real.sqrt (p02Of T * pp2Of E g T) * Real.sin (theta / 2) ^ 2

/-- The loop-local `(qmin, qmax)` pair of row `i` (lines 191-200):
`E = energy_axis[i] + energy_shift`, then the integration bounds
`qmin = sqrt(qa0sqmin)/a0` and `qmax = sqrt(qa0sqmax)/a0`.  The
collection half-angle enters only through `qmax`. -/
noncomputable def rowKinematics (t : GOSTable) (onset theta E0 : ℝ) (i : ℕ) :
    ℝ × ℝ :=
  let energy_shift := onset - t.onset_energy
  let g := gammaOf E0
  let T := TOf E0
  let E := t.energy_axis.getD i 0 + energy_shift
  (Real.sqrt (qa0sqminOf E g T) / a0, Real.sqrt (qa0sqmaxOf E g T theta) / a0)

/-- The Simpson integral of row `i` on the log-q-squared grid
(lines 202-204): the interpolated row between `qmin` and `qmax`,
integrated against `x = ln((a0*q)^2)`. -/
noncomputable def rowIntegral (t : GOSTable) (onset theta E0 : ℝ) (i : ℕ) : ℝ :=
  let qk := rowKinematics t onset theta E0 i
  let qg := get_qaxis_and_gos t.qaxis (t.gos_array.getD i []) qk.1 qk.2
  simps qg.2 (qg.1.map (fun q => Real.log ((a0 * q) ^ 2)))

/-- The unscaled `qint` array (lines 185-204): `np.zeros(len(energy_axis))`
with entry `i` filled by the row integral for every row of the GOS
array. -/
noncomputable def qintRaw (t : GOSTable) (onset theta E0 : ℝ) : List ℝ :=
  (List.range t.energy_axis.length).map fun i =>
    if i < t.gos_array.length then rowIntegral t onset theta E0 i else 0

/-- The scaled `qint` array (lines 205-208): after the loop the whole
array is multiplied elementwise by
`(4.0*np.pi*a0**2.0*R**2 / E / T * subshell_factor) * 1e28`, with `E`
the full shifted energy array. -/
noncomputable def qintScaled (t : GOSTable) (onset theta E0 : ℝ) : List ℝ :=
  let energy_shift := onset - t.onset_energy
  (List.range t.energy_axis.length).map fun i =>
    let Ei := t.energy_axis.getD i 0 + energy_shift
    (qintRaw t onset theta E0).getD i 0 *
      (4 * Real.pi * a0 ^ 2 * R ^ 2 / Ei / TOf E0 * t.subshell_factor * (10:ℝ)^28)

/-- Data-level model of `scipy.interpolate.interp1d(E, qint, kind=3)`
(line 210, an external collaborator): the interpolation nodes and the
spline order. -/
structure Interp1d where
  xs : List ℝ
  ys : List ℝ
  kind : ℕ

/-- Embedding of `HartreeSlaterGOS.integrateq` (lines 182-210): the
returned cubic interpolant over the shifted energy axis and the scaled
`qint` array. -/
noncomputable def integrateq (t : GOSTable) (onset theta E0 : ℝ) : Interp1d :=
  let energy_shift := onset - t.onset_energy
  { xs := t.energy_axis.map (fun e => e + energy_shift),
    ys := qintScaled t onset theta E0,
    kind := 3 }

/-- Claim-side definition (C1 wording) of `integrateq`: per row `i`,
`E = energyAxis[i] + (onsetEnergyOverride - table.onsetEnergy)`,
`gamma = 1 + beamEnergy/511.06`, `T = 511060*(1 - 1/gamma^2)/2`,
`qa0sqmin = E^2/(4*R*T) + E^3/(8*gamma^3*R*T^2)`,
`p0^2 = T/(R*(1 - 2T/511060))`, `pp^2 = p0^2 - (E/R)*(gamma - E/1022120)`,
`qa0sqmax = qa0sqmin + 4*sqrt(p0^2*pp^2)*sin^2(angle/2)`,
`qmin = sqrt(qa0sqmin)/a0`, `qmax = sqrt(qa0sqmax)/a0`, Simpson
integration of the interpolated GOS row against `x = ln((a0*q)^2)`; after
the loop the whole array is scaled by
`4*pi*a0^2*R^2/(E*T)*subshellFactor*1e28` with `E` the full
shifted-energy array, and a cubic interpolant over
`(shiftedEnergyAxis, qint)` is returned. -/
noncomputable def integrateqSpec (t : GOSTable) (onset theta E0 : ℝ) : Interp1d :=
  let g := 1 + E0 / 511.06
  let T := 511060 * (1 - 1 / g ^ 2) / 2
  let shiftedEnergyAxis := t.energy_axis.map (fun e => e + (onset - t.onset_energy))
  let qint := (List.range t.energy_axis.length).map fun i =>
    if i < t.gos_array.length then
      let E := t.energy_axis.getD i 0 + (onset - t.onset_energy)
      let qa0sqmin := E^2 / (4 * R * T) + E^3 / (8 * g^3 * R * T^2)
      let p02 := T / (R * (1 - 2 * T / 511060))
      let pp2 := p02 - E / R * (g - E / 1022120)
      let qa0sqmax := qa0sqmin + 4 * Real.sqrt (p02 * pp2) * Real.sin (theta / 2) ^ 2
      let qmin := Real.sqrt qa0sqmin / a0
      let qmax := Real.sqrt qa0sqmax / a0
      let qg := get_qaxis_and_gos t.qaxis (t.gos_array.getD i []) qmin qmax
      simps qg.2 (qg.1.map (fun q => Real.log ((a0 * q) ^ 2)))
    else 0
  let qintS := (List.range t.energy_axis.length).map fun i =>
    let E := t.energy_axis.getD i 0 + (onset - t.onset_energy)
    qint.getD i 0 * (4 * Real.pi * a0 ^ 2 * R ^ 2 / (E * T) * t.subshell_factor * (10:ℝ)^28)
  { xs := shiftedEnergyAxis, ys := qintS, kind := 3 }

/-- The attribute state of a `HartreeSlaterGOS` instance around
`integrateq`: the constructed table fields plus the `energy_shift` and
`qint` attributes the method writes (lines 184 and 209); `none` means the
attribute has not been set. -/
structure HSState where
  core : GOSTable
  energy_shift : Option ℝ
  qint : Option (List ℝ)

/-- State-passing embedding of `integrateq` (lines 182-210): the method
returns the interpolant and the updated object state.  It writes
`self.energy_shift = energy_shift` (line 184) and `self.qint = qint`
(line 209); every other attribute is only read. -/
noncomputable def integrateqSt (s : HSState) (onset theta E0 : ℝ) :
    HSState × Interp1d :=
  ({ s with energy_shift := some (onset - s.core.onset_energy),
            qint := some (qintScaled s.core onset theta E0) },
   integrateq s.core onset theta E0)

/-- A concrete one-row table for counterexamples: onset 40 eV, one
energy bin at 100 eV, q axis far above the kinematic range, GOS
identically -1. -/
noncomputable def tblC6 : GOSTable :=
  { element := "X", subshell := "K", onset_energy := 40,
    rel_energy_axis := [60], energy_axis := [100],
    qaxis := [10^20, 2 * 10^20], gos_array := [[-1, -1]],
    subshell_factor := 1 }

end HS

/-- The error channel of the q-range extraction.  The spec names
`QOutOfRangeError` for bounds violations; the `Except` result type makes
that failure statable against the source behaviour. -/
inductive QErr
  | qOutOfRange
  deriving DecidableEq

/-- The q-range extraction with the spec's error channel, at rational
points for concrete evaluation: the source (see `HS.get_qaxis_and_gos`)
performs no bounds check and always returns a row, so the embedding
never produces `QOutOfRangeError`. -/
def get_qaxis_and_gosE (qaxis row : List ℚ) (qmin qmax : ℚ) :
    Except QErr (List ℚ × List ℚ) :=
  .ok (HS.get_qaxis_and_gos qaxis row qmin qmax)

namespace HSN

/-- An IEEE-754-style extended number over an ordered field `K`: NaN, a
signed infinity, or a finite value.  Finite arithmetic is exact (no
rounding or overflow) and signed zero is not modelled — adequate for the
NaN/infinity *propagation* claims, which depend only on the special-value
rules. -/
inductive NFloat (K : Type) where
  | nan : NFloat K
  | inf : Bool → NFloat K
  | fin : K → NFloat K
  deriving DecidableEq

namespace NFloat

variable {K : Type} [LinearOrderedField K]

/-- IEEE addition: NaN absorbs; opposite infinities give NaN. -/
def add : NFloat K → NFloat K → NFloat K
  | nan, _ => nan
  | _, nan => nan
  | inf s, inf t => if s = t then inf s else nan
  | inf s, fin _ => inf s
  | fin _, inf t => inf t
  | fin a, fin b => fin (a + b)

/-- IEEE negation. -/
def neg : NFloat K → NFloat K
  | nan => nan
  | inf s => inf (!s)
  | fin a => fin (-a)

/-- IEEE subtraction. -/
def sub (x y : NFloat K) : NFloat K := add x (neg y)

/-- IEEE multiplication: NaN absorbs; infinity times zero is NaN. -/
def mul : NFloat K → NFloat K → NFloat K
  | nan, _ => nan
  | _, nan => nan
  | inf s, inf t => inf (xor s t)
  | inf s, fin b => if b = 0 then nan else inf (xor s (decide (b < 0)))
  | fin a, inf t => if a = 0 then nan else inf (xor t (decide (a < 0)))
  | fin a, fin b => fin (a * b)

/-- IEEE division (without signed zero: a nonzero finite value over zero
is an infinity signed by the numerator, as numpy produces for a positive
zero denominator). -/
def div : NFloat K → NFloat K → NFloat K
  | nan, _ => nan
  | _, nan => nan
  | inf _, inf _ => nan
  | inf s, fin b => inf (xor s (decide (b < 0)))
  | fin _, inf _ => fin 0
  | fin a, fin b =>
    if b = 0 then (if a = 0 then nan else inf (decide (a < 0))) else fin (a / b)

instance : Add (NFloat K) := ⟨add⟩
instance : Neg (NFloat K) := ⟨neg⟩
instance : Sub (NFloat K) := ⟨sub⟩
instance : Mul (NFloat K) := ⟨mul⟩
instance : Div (NFloat K) := ⟨div⟩

/-- `np.sqrt`/`math.sqrt` on extended values: NaN for a negative finite
argument (numpy warns and returns NaN; in `integrateq` the `math.sqrt`
call sites receive non-negative or NaN arguments, and `math.sqrt` of NaN
is NaN). -/
def sqrt (rsqrt : K → K) : NFloat K → NFloat K
  | nan => nan
  | inf s => if s then nan else inf false
  | fin a => if a < 0 then nan else fin (rsqrt a)

/-- `math.sin` on extended values (NaN at infinities). -/
def sin (rsin : K → K) : NFloat K → NFloat K
  | nan => nan
  | inf _ => nan
  | fin a => fin (rsin a)

/-- `np.log` on extended values: NaN for a negative argument, negative
infinity at zero. -/
def log (rlog : K → K) : NFloat K → NFloat K
  | nan => nan
  | inf s => if s then nan else inf false
  | fin a => if a < 0 then nan else if a = 0 then inf true else fin (rlog a)

/-- IEEE comparison: every comparison involving NaN is false. -/
def ltB : NFloat K → NFloat K → Bool
  | nan, _ => false
  | _, nan => false
  | inf s, inf t => s && !t
  | inf s, fin _ => s
  | fin _, inf t => !t
  | fin a, fin b => decide (a < b)

/-- Natural power by repeated multiplication; `x ** 0 = 1` even at NaN,
as in Python. -/
def pow (x : NFloat K) : ℕ → NFloat K
  | 0 => fin 1
  | n + 1 => pow x n * x

/-- Finiteness test. -/
def finB : NFloat K → Bool
  | fin _ => true
  | _ => false

/-- Negative-finite test. -/
def negFinB : NFloat K → Bool
  | fin a => decide (a < 0)
  | _ => false

/-- Positive-finite test. -/
def posFinB : NFloat K → Bool
  | fin a => decide (0 < a)
  | _ => false

end NFloat

end HSN

namespace HSN

variable {K : Type} [LinearOrderedField K]

/-- The table attributes read by `integrateq`, with extended-real
entries. -/
structure NFTable (K : Type) where
  onset_energy : NFloat K
  energy_axis : List (NFloat K)
  qaxis : List (NFloat K)
  gos_array : List (List (NFloat K))
  subshell_factor : NFloat K
  deriving DecidableEq

/-- Rydberg constant (line 34) as a finite extended value. -/
def Rn : NFloat K := .fin (13605693122994 / 10^12)

/-- Bohr radius (line 35) as a finite extended value. -/
def a0n : NFloat K := .fin (529177210903 / 10^22)

/-- `np.pi` (the double-precision decimal) as a finite extended value. -/
def piN : NFloat K := .fin (3141592653589793 / 10^15)

/-- `gamma = 1 + E0 / 511.06` (line 188) over extended values. -/
def gammaN (E0 : NFloat K) : NFloat K := .fin 1 + E0 / .fin (51106 / 100)

/-- `T = 511060 * (1 - 1 / gamma ** 2) / 2` (line 189). -/
def TN (E0 : NFloat K) : NFloat K :=
  .fin 511060 * (.fin 1 - .fin 1 / (gammaN E0).pow 2) / .fin 2

/-- `qa0sqmin` (lines 193-194). -/
def qa0sqminN (E g T : NFloat K) : NFloat K :=
  E.pow 2 / (.fin 4 * Rn * T) + E.pow 3 / (.fin 8 * g.pow 3 * Rn * T.pow 2)

/-- `p02 = T / (R * (1 - 2 * T / 511060))` (line 195). -/
def p02N (T : NFloat K) : NFloat K :=
  T / (Rn * (.fin 1 - .fin 2 * T / .fin 511060))

/-- `pp2 = p02 - E / R * (gamma - E / 1022120)` (line 196). -/
def pp2N (E g T : NFloat K) : NFloat K :=
  p02N T - E / Rn * (g - E / .fin 1022120)

/-- `qa0sqmax = qa0sqmin + 4 * np.sqrt(p02 * pp2) * sin(angle/2) ** 2`
(lines 197-198). -/
def qa0sqmaxN (rsqrt rsin : K → K) (E g T theta : NFloat K) : NFloat K :=
  qa0sqminN E g T +
    .fin 4 * NFloat.sqrt rsqrt (p02N T * pp2N E g T) *
      (NFloat.sin rsin (theta / .fin 2)).pow 2

/-- `qmax = math.sqrt(qa0sqmax) / a0` (line 200). -/
def qmaxN (rsqrt rsin : K → K) (E g T theta : NFloat K) : NFloat K :=
  NFloat.sqrt rsqrt (qa0sqmaxN rsqrt rsin E g T theta) / a0n

/-- Modelled from the spec: extended-value linear interpolation over the
list of (q, gos) pairs, the twin of `HS.interpRow` (the same segment
search and segment formula; NaN propagates through every branch, and
comparisons with NaN are false). -/
def interpSegsN : List (NFloat K × NFloat K) → NFloat K → NFloat K
  | [(q1, g1), (q2, g2)], q => g1 + (g2 - g1) * (q - q1) / (q2 - q1)
  | (q1, g1) :: (q2, g2) :: p3 :: ps, q =>
    if NFloat.ltB q q2 then g1 + (g2 - g1) * (q - q1) / (q2 - q1)
    else interpSegsN ((q2, g2) :: p3 :: ps) q
  | _, _ => .nan

/-- Modelled from the spec: extended-value twin of
`HS.get_qaxis_and_gos` (`GOSBase.get_qaxis_and_gos`, called at
line 202): row between `qmin` and `qmax` with endpoint values
synthesized by linear interpolation, no bounds check. -/
def get_qaxis_and_gosN (qaxis row : List (NFloat K)) (qmin qmax : NFloat K) :
    List (NFloat K) × List (NFloat K) :=
  let mid := (qaxis.zip row).filter
    (fun p => NFloat.ltB qmin p.1 && NFloat.ltB p.1 qmax)
  let pts := (qmin, interpSegsN (qaxis.zip row) qmin) ::
    (mid ++ [(qmax, interpSegsN (qaxis.zip row) qmax)])
  (pts.map Prod.fst, pts.map Prod.snd)

/-- Trapezoid over one interval, extended values. -/
def trapSegN (x0 x1 y0 y1 : NFloat K) : NFloat K :=
  (x1 - x0) * (y0 + y1) / .fin 2

/-- One Simpson segment over two adjacent intervals, extended values
(twin of `HS.simpSeg`). -/
def simpSegN (x0 x1 x2 y0 y1 y2 : NFloat K) : NFloat K :=
  (x1 - x0 + (x2 - x1)) / .fin 6 *
    ((.fin 2 - (x2 - x1) / (x1 - x0)) * y0 +
      (x1 - x0 + (x2 - x1)).pow 2 / ((x1 - x0) * (x2 - x1)) * y1 +
      (.fin 2 - (x1 - x0) / (x2 - x1)) * y2)

/-- Modelled from the spec: extended-value composite Simpson integrator,
twin of `HS.simps` (`scipy.integrate.simps`, line 204). -/
def simpsN : List (NFloat K) → List (NFloat K) → NFloat K
  | y0 :: y1 :: y2 :: ys, x0 :: x1 :: x2 :: xs =>
    simpSegN x0 x1 x2 y0 y1 y2 + simpsN (y2 :: ys) (x2 :: xs)
  | [y0, y1], [x0, x1] => trapSegN x0 x1 y0 y1
  | _, _ => .fin 0

/-- The row integral of `integrateq` (lines 191-204) over extended
values. -/
def rowIntegralN (rsqrt rsin rlog : K → K) (t : NFTable K)
    (onset theta E0 : NFloat K) (i : ℕ) : NFloat K :=
  let energy_shift := onset - t.onset_energy
  let g := gammaN E0
  let T := TN E0
  let E := t.energy_axis.getD i .nan + energy_shift
  let qmin := NFloat.sqrt rsqrt (qa0sqminN E g T) / a0n
  let qmax := qmaxN rsqrt rsin E g T theta
  let qg := get_qaxis_and_gosN t.qaxis (t.gos_array.getD i []) qmin qmax
  simpsN qg.2 (qg.1.map (fun q => NFloat.log rlog ((a0n * q).pow 2)))

/-- The scaled `qint` array of `integrateq` (lines 185-208) over
extended values: row integrals for the rows of the GOS array (zero
elsewhere), each multiplied by the barn-conversion factor
`4.0 * np.pi * a0**2 * R**2 / E / T * subshell_factor * 1e28` with `E`
the shifted energy array. -/
def qintN (rsqrt rsin rlog : K → K) (t : NFTable K)
    (onset theta E0 : NFloat K) : List (NFloat K) :=
  let energy_shift := onset - t.onset_energy
  (List.range t.energy_axis.length).map fun i =>
    (if i < t.gos_array.length then rowIntegralN rsqrt rsin rlog t onset theta E0 i
     else .fin 0) *
      (.fin 4 * piN * a0n.pow 2 * Rn.pow 2 /
          (t.energy_axis.getD i .nan + energy_shift) / TN E0 *
        t.subshell_factor * .fin (10^28))

/-- A concrete table for the C5 witness: one energy bin at 10^6 eV
(far beyond what a 10 keV beam can transfer). -/
def tblC5 : NFTable ℚ :=
  { onset_energy := .fin 1000000, energy_axis := [.fin 1000000],
    qaxis := [.fin 1, .fin 2], gos_array := [[.fin 1, .fin 1]],
    subshell_factor := .fin 1 }

/-- A concrete table for the C10 witness: onset 100 eV; the override 0
shifts the single energy bin to exactly zero. -/
def tblC10 : NFTable ℚ :=
  { onset_energy := .fin 100, energy_axis := [.fin 100],
    qaxis := [.fin 1, .fin 2], gos_array := [[.fin 1, .fin 1]],
    subshell_factor := .fin 1 }

end HSN

/-- C2: audit of the family-sum property of the convention factors.  For
every combined edge family the factor of the combined label should equal
the sum of the member factors.  This holds for the L, M, N2-N5 and O
families, but it fails for the N6,7 family: the code tabulates
`factor('N6') = 4/7`, so `factor('N6') + factor('N7') = 11/7`, while
`factor('N6,7') = 7/4`.  (Consistency with the code's own
`N6,7 = 7/4, N7 = 1` entries would require `N6 = 3/4`, the occupancy
ratio 6/8 of the 4f5/2 and 4f7/2 subshells; `4/7` is a slip.) -/
theorem C2_factor_sum_audit :
    (HSQ.factorOf "L2" + HSQ.factorOf "L3" = HSQ.factorOf "L2,3") ∧
    (HSQ.factorOf "M2" + HSQ.factorOf "M3" = HSQ.factorOf "M2,3") ∧
    (HSQ.factorOf "M4" + HSQ.factorOf "M5" = HSQ.factorOf "M4,5") ∧
    (HSQ.factorOf "N2" + HSQ.factorOf "N3" = HSQ.factorOf "N2,3") ∧
    (HSQ.factorOf "N4" + HSQ.factorOf "N5" = HSQ.factorOf "N4,5") ∧
    (HSQ.factorOf "O2" + HSQ.factorOf "O3" = HSQ.factorOf "O2,3") ∧
    (HSQ.factorOf "O4" + HSQ.factorOf "O5" = HSQ.factorOf "O4,5") ∧
    HSQ.factorOf "N6" + HSQ.factorOf "N7" ≠ HSQ.factorOf "N6,7" ∧
    HSQ.factorOf "N6" + HSQ.factorOf "N7" = 11/7 ∧
    HSQ.factorOf "N6,7" = 7/4 := by
  norm_num [HSQ.factorOf, HSQ.conventions]

namespace HSQ

/-- All tokens of a list parse iff `parseAll` succeeds on it. -/
theorem parseAll_isSome_iff (pF : String → Option ℚ) (l : List String) :
    (parseAll pF l).isSome ↔ ∀ t ∈ l, (pF t).isSome := by
  induction l with
  | nil => simp [parseAll]
  | cons t ts ih =>
    simp only [parseAll, List.forall_mem_cons]
    cases h : pF t with
    | none => simp [h]
    | some v =>
      cases h2 : parseAll pF ts with
      | none => simp [h, h2, ← ih]
      | some vs => simp [h, h2, ← ih]

/-- `parseAll` preserves the length of the token list. -/
theorem parseAll_length (pF : String → Option ℚ) (l : List String) :
    ∀ vs, parseAll pF l = some vs → vs.length = l.length := by
  induction l with
  | nil => intro vs h; simp [parseAll] at h; simp [← h]
  | cons t ts ih =>
    intro vs h
    simp only [parseAll] at h
    cases hf : pF t with
    | none => rw [hf] at h; simp at h
    | some v =>
      rw [hf] at h
      cases hp : parseAll pF ts with
      | none => rw [hp] at h; simp at h
      | some ws =>
        rw [hp] at h
        obtain rfl : v :: ws = vs := by simpa using h
        simp [ih ws hp]

/-- On nonnegative dimensions, `npReshape` reduces to the exact-size
check. -/
theorem npReshape_nonneg (vals : List ℚ) (N M : ℤ) (hN : 0 ≤ N) (hM : 0 ≤ M) :
    npReshape vals N M =
      (if (vals.length : ℤ) = N * M then some (chunkRows M.toNat N.toNat vals)
       else none) := by
  unfold npReshape
  rw [if_pos ⟨hN, hM⟩]

/-- Success characterization of the `readgosfile` token pipeline. -/
theorem readgosfile_eq_some_iff (pF : String → Option ℚ) (pZ : String → Option ℤ)
    (tokens : List String) (rt : RawTable) :
    readgosfile pF pZ tokens = some rt ↔
      ∃ a b M c d N vals rows,
        (tokens[2]?).bind pF = some a ∧ (tokens[3]?).bind pF = some b ∧
        (tokens[5]?).bind pZ = some M ∧ (tokens[6]?).bind pF = some c ∧
        (tokens[7]?).bind pF = some d ∧ (tokens[8]?).bind pZ = some N ∧
        parseAll pF (tokens.drop 9) = some vals ∧
        npReshape vals N M = some rows ∧
        rt = { info1_1 := a, info1_2 := b, ncol := M, info2_1 := c, info2_2 := d,
               nrow := N, gos := rows.map (fun r => r.map (· / Rq)) } := by
  unfold readgosfile
  cases h2 : (tokens[2]?).bind pF <;> simp [h2]
  cases h3 : (tokens[3]?).bind pF <;> simp [h3]
  cases h5 : (tokens[5]?).bind pZ <;> simp [h5]
  cases h6 : (tokens[6]?).bind pF <;> simp [h6]
  cases h7 : (tokens[7]?).bind pF <;> simp [h7]
  cases h8 : (tokens[8]?).bind pZ <;> simp [h8]
  cases hv : parseAll pF (tokens.drop 9) <;> simp [hv]
  cases hr : npReshape _ _ _ <;> simp [hr]
  exact eq_comm

end HSQ

/-- C7 (amended): for nonnegative parsed row/column counts `N`, `M`, the
token-level loader succeeds exactly when the token count is `9 + N*M` and
every required token parses, and on success the fields obey the stated
layout (tokens 2 and 3 the q-axis coefficients, token 5 the column
count, tokens 6 and 7 the energy-axis coefficients, token 8 the row
count, tokens 9 and onward the N-by-M row-major matrix divided by the
Rydberg constant).  The nonnegativity restriction is forced by numpy's
reshape: a `-1` row-count token triggers shape inference instead of
failing (see the counterexample). -/
theorem C7_token_layout_amended (pF : String → Option ℚ) (pZ : String → Option ℤ)
    (tokens : List String) (N M : ℤ)
    (h5 : (tokens[5]?).bind pZ = some M) (h8 : (tokens[8]?).bind pZ = some N)
    (hN : 0 ≤ N) (hM : 0 ≤ M) :
    ((HSQ.readgosfile pF pZ tokens).isSome ↔
      ((tokens.length : ℤ) = 9 + N * M ∧ HSQ.requiredTokensParse pF pZ tokens)) ∧
    HSQ.readgosfileLayoutOK pF pZ tokens N M := by
  have hlen9 : 9 ≤ tokens.length := by
    cases ht8 : tokens[8]? with
    | none => rw [ht8] at h8; simp at h8
    | some s8 =>
      have : 8 < tokens.length := by
        have := List.getElem?_eq_some.mp ht8
        exact this.1
      omega
  have hdrop : (tokens.drop 9).length = tokens.length - 9 := List.length_drop 9 tokens
  constructor
  · constructor
    · intro hs
      obtain ⟨rt, hrt⟩ := Option.isSome_iff_exists.mp hs
      rw [HSQ.readgosfile_eq_some_iff] at hrt
      obtain ⟨a, b, M', c, d, N', vals, rows, ha, hb, hM', hc, hd, hN', hv, hr, -⟩ := hrt
      obtain rfl : M = M' := by rw [hM'] at h5; exact (Option.some_inj.mp h5).symm
      obtain rfl : N = N' := by rw [hN'] at h8; exact (Option.some_inj.mp h8).symm
      rw [HSQ.npReshape_nonneg vals N M hN hM] at hr
      have hvl : (vals.length : ℤ) = N * M := by
        by_contra hne
        rw [if_neg hne] at hr
        exact Option.noConfusion hr
      have hlv : vals.length = (tokens.drop 9).length := HSQ.parseAll_length pF _ vals hv
      refine ⟨by omega, ?_, ?_, ?_, ?_, ?_, ?_, ?_⟩
      · rw [ha]; rfl
      · rw [hb]; rfl
      · rw [h5]; rfl
      · rw [hc]; rfl
      · rw [hd]; rfl
      · rw [h8]; rfl
      · exact (HSQ.parseAll_isSome_iff pF _).mp (by rw [hv]; rfl)
    · rintro ⟨hlen, p2, p3, p5, p6, p7, p8, pall⟩
      obtain ⟨a, ha⟩ := Option.isSome_iff_exists.mp p2
      obtain ⟨b, hb⟩ := Option.isSome_iff_exists.mp p3
      obtain ⟨c, hc⟩ := Option.isSome_iff_exists.mp p6
      obtain ⟨d, hd⟩ := Option.isSome_iff_exists.mp p7
      obtain ⟨vals, hv⟩ :=
        Option.isSome_iff_exists.mp ((HSQ.parseAll_isSome_iff pF _).mpr pall)
      have hlv : vals.length = (tokens.drop 9).length := HSQ.parseAll_length pF _ vals hv
      have hvl : (vals.length : ℤ) = N * M := by omega
      rw [Option.isSome_iff_exists]
      refine ⟨{ info1_1 := a, info1_2 := b, ncol := M, info2_1 := c, info2_2 := d,
                nrow := N,
                gos := (HSQ.chunkRows M.toNat N.toNat vals).map
                  (fun r => r.map (· / HSQ.Rq)) },
        (HSQ.readgosfile_eq_some_iff pF pZ tokens _).mpr
          ⟨a, b, M, c, d, N, vals, HSQ.chunkRows M.toNat N.toNat vals,
            ha, hb, h5, hc, hd, h8, hv,
            by rw [HSQ.npReshape_nonneg vals N M hN hM, if_pos hvl], rfl⟩⟩
  · intro rt hrt
    rw [HSQ.readgosfile_eq_some_iff] at hrt
    obtain ⟨a, b, M', c, d, N', vals, rows, ha, hb, hM', hc, hd, hN', hv, hr, rfl⟩ := hrt
    obtain rfl : M = M' := by rw [hM'] at h5; exact (Option.some_inj.mp h5).symm
    obtain rfl : N = N' := by rw [hN'] at h8; exact (Option.some_inj.mp h8).symm
    rw [HSQ.npReshape_nonneg vals N M hN hM] at hr
    have hvl : (vals.length : ℤ) = N * M := by
      by_contra hne
      rw [if_neg hne] at hr
      exact Option.noConfusion hr
    rw [if_pos hvl] at hr
    obtain rfl : HSQ.chunkRows M.toNat N.toNat vals = rows := Option.some_inj.mp hr
    exact ⟨rfl, rfl, ha, hb, hc, hd, vals, hv, hvl, rfl⟩

/-- C7 counterexample: a token list whose row-count token is `-1` and
whose column-count token is `1`.  Its token count (11) differs from
`9 + N*M = 8`, so the claim demands a loading failure, yet the loader
succeeds: `reshape(-1, 1)` triggers numpy's shape inference on the
2-element payload instead of raising. -/
theorem C7_counterexample :
    (HSQ.toksBad[5]?).bind HSQ.pZ0 = some 1 ∧
    (HSQ.toksBad[8]?).bind HSQ.pZ0 = some (-1) ∧
    (HSQ.toksBad.length : ℤ) ≠ 9 + (-1) * 1 ∧
    (HSQ.readgosfile HSQ.pF0 HSQ.pZ0 HSQ.toksBad).isSome = true := by
  refine ⟨by decide, by decide, by decide, by decide⟩

/-- C7 witness: the amended theorem applied to a concrete well-formed
token list with `N = 2` rows and `M = 2` columns. -/
theorem C7_witness :
    ((HSQ.toksOK[5]?).bind HSQ.pZ0 = some 2 ∧
      (HSQ.toksOK[8]?).bind HSQ.pZ0 = some 2 ∧ (0 : ℤ) ≤ 2 ∧ (0 : ℤ) ≤ 2) ∧
    (((HSQ.readgosfile HSQ.pF0 HSQ.pZ0 HSQ.toksOK).isSome ↔
        ((HSQ.toksOK.length : ℤ) = 9 + 2 * 2 ∧
          HSQ.requiredTokensParse HSQ.pF0 HSQ.pZ0 HSQ.toksOK)) ∧
      HSQ.readgosfileLayoutOK HSQ.pF0 HSQ.pZ0 HSQ.toksOK 2 2) :=
  ⟨⟨by decide, by decide, by decide, by decide⟩,
    C7_token_layout_amended HSQ.pF0 HSQ.pZ0 HSQ.toksOK 2 2
      (by decide) (by decide) (by decide) (by decide)⟩

/-- C8: on both construction paths — building the table from a parsed
table file (`readgosfile`, lines 176-180) and reconstructing it from an
exported dictionary (`_load_dictionary`, lines 116-118) — the derived
energy axis equals the relative energy axis shifted elementwise by the
onset energy, immediately after construction. -/
theorem C8_energy_axis_derived (rt : HSQ.RawTable)
    (axE axQ : ℚ → ℚ → ℕ → List ℚ) (el sub : String) (onset factor : ℚ)
    (d : HSQ.GOSDict) :
    (HSQ.mkTable rt axE axQ el sub onset factor).energy_axis =
      (HSQ.mkTable rt axE axQ el sub onset factor).rel_energy_axis.map
        (· + (HSQ.mkTable rt axE axQ el sub onset factor).onset_energy) ∧
    (HSQ.loadFromDict d onset factor).energy_axis =
      (HSQ.loadFromDict d onset factor).rel_energy_axis.map
        (· + (HSQ.loadFromDict d onset factor).onset_energy) :=
  ⟨rfl, rfl⟩

/-- C9: a subshell label that is not a key of the convention map makes
construction fail at the convention lookup (the `KeyError` of line 129,
modelled as `unknownSubshell`), with an empty file-operation trace — no
directory check, no file open — on both the string and the dictionary
construction paths. -/
theorem C9_unknown_subshell_no_io (lookupOnset : String → String → ℚ)
    (pF : String → Option ℚ) (pZ : String → Option ℤ)
    (axE axQ : ℚ → ℚ → ℕ → List ℚ)
    (gosPath : String) (dirOK : Bool) (fs : String → Option (List String))
    (element_subshell el sub : String) (d : HSQ.GOSDict)
    (hsplit : HSQ.pySplitUnderscore element_subshell = [el, sub])
    (hsub : HSQ.conventions sub = none)
    (hd : HSQ.conventions d.subshell = none) :
    HSQ.hsInit lookupOnset pF pZ axE axQ gosPath dirOK fs element_subshell =
      (.error .unknownSubshell, []) ∧
    HSQ.hsInitDict lookupOnset d = (.error .unknownSubshell, []) := by
  constructor
  · unfold HSQ.hsInit
    rw [hsplit]
    simp [hsub]
  · unfold HSQ.hsInitDict
    simp [hd]

/-- C9 witness: the theorem applied to the concrete unknown label
`Z9` (as `Ti_Z9` and as a dictionary with subshell `Z9`). -/
theorem C9_witness :
    (HSQ.pySplitUnderscore "Ti_Z9" = ["Ti", "Z9"] ∧
      HSQ.conventions "Z9" = none) ∧
    (HSQ.hsInit (fun _ _ => 0) HSQ.pF0 HSQ.pZ0 HSQ.axTriv HSQ.axTriv
        "gos" true (fun _ => none) "Ti_Z9" =
      (.error .unknownSubshell, []) ∧
    HSQ.hsInitDict (fun _ _ => 0) ⟨[], [], [], "Ti", "Z9"⟩ =
      (.error .unknownSubshell, [])) :=
  ⟨⟨by decide, by decide⟩,
    C9_unknown_subshell_no_io (fun _ _ => 0) HSQ.pF0 HSQ.pZ0 HSQ.axTriv HSQ.axTriv
      "gos" true (fun _ => none) "Ti_Z9" "Ti" "Z9" ⟨[], [], [], "Ti", "Z9"⟩
      (by decide) (by decide) (by decide)⟩

/-- C1: for every table and every (onset override, collection
half-angle, beam energy), the embedded `integrateq` coincides with the
algorithm exactly as the claim states it (`integrateqSpec`): per-row
`E = energyAxis[i] + (onsetEnergyOverride - onsetEnergy)`, the stated
relativistic kinematic bounds, Simpson integration of the interpolated
GOS row against `x = ln((a0*q)^2)`, the after-loop scaling of the whole
array by `4*pi*a0^2*R^2/(E*T)*subshellFactor*1e28` with `E` the full
shifted-energy array, and a returned cubic interpolant over
`(shiftedEnergyAxis, qint)`. -/
theorem C1_integrateq_matches_spec (t : HS.GOSTable) (onset theta E0 : ℝ) :
    HS.integrateq t onset theta E0 = HS.integrateqSpec t onset theta E0 := by
  unfold HS.integrateq HS.integrateqSpec HS.qintScaled
  dsimp only
  congr 1
  apply List.map_congr_left
  intro i _
  dsimp only
  congr 1
  unfold HS.TOf HS.gammaOf
  rw [div_div]

/-- C3 counterexample: `integrateq` does write new attributes onto the
shared object: called on a freshly constructed state (no `energy_shift`,
no `qint` attribute), the post-call state differs from the pre-call
state, because `self.energy_shift` (line 184) and `self.qint` (line 209)
have been set. -/
theorem C3_counterexample :
    (HS.integrateqSt ⟨HS.tblC6, none, none⟩ 40 0 100).1 ≠
      ⟨HS.tblC6, none, none⟩ := by
  intro h
  have h2 := congrArg HS.HSState.qint h
  simp [HS.integrateqSt] at h2

/-- C3 (amended): `integrateq` leaves all eight constructed table fields
(element, subshell, onset_energy, rel_energy_axis, energy_axis, qaxis,
gos_array, subshell_factor) unchanged — it only reads them — but it does
mutate the object, writing the `energy_shift` and `qint` attributes. -/
theorem C3_table_fields_amended (s : HS.HSState) (onset theta E0 : ℝ) :
    (HS.integrateqSt s onset theta E0).1.core = s.core ∧
    (HS.integrateqSt s onset theta E0).1.energy_shift =
      some (onset - s.core.onset_energy) ∧
    (HS.integrateqSt s onset theta E0).1.qint =
      some (HS.qintScaled s.core onset theta E0) :=
  ⟨rfl, rfl, rfl⟩

/-- C4 counterexample: with tabulated q axis [1, 2] and GOS row [3, 5],
requesting `qmax = 10` — far above the tabulated maximum 2 — does not
raise `QOutOfRangeError`: the extraction returns a result whose value at
`qmax` is synthesized by silent linear extrapolation
(5 + (5-3)*(10-1)/(2-1) ... = 21), contradicting the claimed failure. -/
theorem C4_counterexample :
    (2 : ℚ) < 10 ∧
    get_qaxis_and_gosE [1, 2] [3, 5] (3/2) 10 =
      .ok ([3/2, 2, 10], [4, 5, 21]) ∧
    get_qaxis_and_gosE [1, 2] [3, 5] (3/2) 10 ≠ .error .qOutOfRange := by
  refine ⟨by norm_num, ?_, by simp [get_qaxis_and_gosE]⟩
  norm_num [get_qaxis_and_gosE, HS.get_qaxis_and_gos, HS.interpRow, List.filter]

/-- C4 (amended): the q-range extraction never fails: whatever the
bounds — inside or outside the tabulated range — it returns a result
(the row between qmin and qmax with endpoint values synthesized by
linear interpolation/extrapolation); no `QOutOfRangeError` is raised and
no bounds check is performed. -/
theorem C4_no_qrange_error_amended (qaxis row : List ℚ) (qmin qmax : ℚ) :
    (get_qaxis_and_gosE qaxis row qmin qmax).isOk = true :=
  rfl

namespace HS

/-- When the requested bounds coincide, the extraction has no interior
points and returns the two synthesized endpoints. -/
theorem get_qaxis_and_gos_self {K : Type} [LinearOrderedField K]
    (qaxis row : List K) (q : K) :
    get_qaxis_and_gos qaxis row q q =
      ([q, q], [interpRow qaxis row q, interpRow qaxis row q]) := by
  unfold get_qaxis_and_gos
  have h : (qaxis.zip row).filter
      (fun p => decide (q < p.1) && decide (p.1 < q)) = [] := by
    rw [List.filter_eq_nil_iff]
    intro p _
    simp only [Bool.and_eq_true, decide_eq_true_eq, not_and]
    intro h1 h2
    exact absurd (h1.trans h2) (lt_irrefl q)
  rw [h]
  rfl

/-- At zero collection angle the upper kinematic bound collapses onto
the lower one (`sin(0/2) = 0`). -/
theorem qa0sqmaxOf_angle_zero (E g T : ℝ) :
    qa0sqmaxOf E g T 0 = qa0sqminOf E g T := by
  unfold qa0sqmaxOf
  norm_num

/-- At zero collection angle every row integral vanishes: the
integration interval is empty. -/
theorem rowIntegral_angle_zero (t : GOSTable) (onset E0 : ℝ) (i : ℕ) :
    rowIntegral t onset 0 E0 i = 0 := by
  unfold rowIntegral rowKinematics
  dsimp only
  rw [qa0sqmaxOf_angle_zero, get_qaxis_and_gos_self]
  simp only [List.map_cons, List.map_nil, simps, trapSeg]
  ring

/-- At zero collection angle the scaled cross section of the
counterexample table is zero. -/
theorem qintScaled_tblC6_zero :
    (qintScaled tblC6 40 0 511.06).getD 0 0 = 0 := by
  unfold qintScaled qintRaw
  simp [tblC6, rowIntegral_angle_zero]

end HS

namespace HS

/-- Concrete value of `gamma` at beam energy 511.06 keV. -/
theorem gammaOf_51106 : gammaOf 511.06 = 2 := by
  unfold gammaOf; norm_num

/-- Concrete value of `T` at beam energy 511.06 keV. -/
theorem TOf_51106 : TOf 511.06 = 383295 / 2 := by
  unfold TOf; rw [gammaOf_51106]; norm_num

/-- The lower kinematic bound of the counterexample row is positive. -/
theorem tblC6_D1_pos : 0 < qa0sqminOf 100 2 (383295 / 2) := by
  unfold qa0sqminOf R; norm_num

/-- The lower kinematic bound of the counterexample row is below one. -/
theorem tblC6_D1_lt : qa0sqminOf 100 2 (383295 / 2) < 1 := by
  unfold qa0sqminOf R; norm_num

/-- The argument of the square root in `qa0sqmax` is positive for the
counterexample row. -/
theorem tblC6_P_pos : 0 < p02Of (383295 / 2) * pp2Of 100 2 (383295 / 2) := by
  unfold pp2Of p02Of R; norm_num

/-- The argument of the square root in `qa0sqmax` is below `10^10` for
the counterexample row. -/
theorem tblC6_P_lt : p02Of (383295 / 2) * pp2Of 100 2 (383295 / 2) < 10 ^ 10 := by
  unfold pp2Of p02Of R; norm_num

end HS

namespace HS

/-- At full collection angle the upper kinematic bound of the
counterexample row is the lower bound plus `4*sqrt(p02*pp2)`
(`sin(pi/2) = 1`). -/
theorem tblC6_qa0sqmax_pi : qa0sqmaxOf 100 2 (383295 / 2) Real.pi
    = qa0sqminOf 100 2 (383295 / 2)
      + 4 * Real.sqrt (p02Of (383295 / 2) * pp2Of 100 2 (383295 / 2)) := by
  unfold qa0sqmaxOf
  rw [Real.sin_pi_div_two]
  ring

/-- The row integral of the counterexample table at full collection
angle is negative: the GOS row is identically -1 and the integration
interval is nonempty. -/
theorem rowIntegral_tblC6_pi_neg :
    rowIntegral tblC6 40 Real.pi 511.06 0 < 0 := by
  have hD1pos := tblC6_D1_pos
  have hD1lt := tblC6_D1_lt
  have hPpos := tblC6_P_pos
  have hPlt := tblC6_P_lt
  have ha0 : (0:ℝ) < a0 := by unfold a0; norm_num
  have hsPpos : 0 < Real.sqrt (p02Of (383295/2) * pp2Of 100 2 (383295/2)) :=
    Real.sqrt_pos.mpr hPpos
  have hsPlt : Real.sqrt (p02Of (383295/2) * pp2Of 100 2 (383295/2)) < 10^5 := by
    rw [Real.sqrt_lt' (by norm_num : (0:ℝ) < 10^5)]
    calc p02Of (383295/2) * pp2Of 100 2 (383295/2) < 10^10 := hPlt
      _ ≤ ((10:ℝ)^5)^2 := by norm_num
  have hqa0 : (10:ℝ)^20 * a0 = 529177210903/100 := by unfold a0; norm_num
  have hqmax_lt : Real.sqrt (qa0sqmaxOf 100 2 (383295/2) Real.pi) / a0 < 10^20 := by
    rw [div_lt_iff₀ ha0, hqa0,
      Real.sqrt_lt' (by norm_num : (0:ℝ) < 529177210903/100), tblC6_qa0sqmax_pi]
    have hbig : (400001 : ℝ) < (529177210903/100)^2 := by norm_num
    linarith [hsPlt, hD1lt]
  have hinterp : ∀ q : ℝ, interpRow [(10:ℝ)^20, 2*10^20] [-1, -1] q = -1 := by
    intro q
    show -1 + (-1 - -1) * (q - 10^20) / (2*10^20 - 10^20) = -1
    ring
  have hq1 : decide ((10:ℝ)^20 < Real.sqrt (qa0sqmaxOf 100 2 (383295/2) Real.pi) / a0)
      = false := decide_eq_false (not_lt.mpr hqmax_lt.le)
  have hq2 : decide (2*(10:ℝ)^20 < Real.sqrt (qa0sqmaxOf 100 2 (383295/2) Real.pi) / a0)
      = false := decide_eq_false (not_lt.mpr (hqmax_lt.le.trans (by norm_num)))
  have hext : get_qaxis_and_gos tblC6.qaxis (tblC6.gos_array.getD 0 [])
      (Real.sqrt (qa0sqminOf 100 2 (383295/2)) / a0)
      (Real.sqrt (qa0sqmaxOf 100 2 (383295/2) Real.pi) / a0)
      = ([Real.sqrt (qa0sqminOf 100 2 (383295/2)) / a0,
          Real.sqrt (qa0sqmaxOf 100 2 (383295/2) Real.pi) / a0],
         [-1, -1]) := by
    unfold get_qaxis_and_gos
    rw [show tblC6.qaxis = [(10:ℝ)^20, 2*10^20] from rfl,
        show tblC6.gos_array.getD 0 [] = [(-1:ℝ), -1] from rfl]
    simp only [List.zip_cons_cons, List.zip_nil_right, List.zip_nil_left,
      List.filter_cons, List.filter_nil, hq1, hq2, Bool.and_false,
      Bool.false_eq_true, if_false, List.nil_append, List.cons_append,
      List.map_cons, List.map_nil]
    simp [hinterp]
  have hE100 : tblC6.energy_axis.getD 0 0 + ((40:ℝ) - tblC6.onset_energy) = 100 := by
    norm_num [tblC6]
  unfold rowIntegral rowKinematics
  dsimp only
  rw [gammaOf_51106, TOf_51106, hE100, hext]
  dsimp only
  simp only [List.map_cons, List.map_nil, simps, trapSeg]
  have e1 : a0 * (Real.sqrt (qa0sqminOf 100 2 (383295/2)) / a0)
      = Real.sqrt (qa0sqminOf 100 2 (383295/2)) := by field_simp
  have e2 : a0 * (Real.sqrt (qa0sqmaxOf 100 2 (383295/2) Real.pi) / a0)
      = Real.sqrt (qa0sqmaxOf 100 2 (383295/2) Real.pi) := by field_simp
  have hmax_nonneg : 0 ≤ qa0sqmaxOf 100 2 (383295/2) Real.pi := by
    rw [tblC6_qa0sqmax_pi]; linarith [hsPpos]
  have hx : Real.log ((a0 * (Real.sqrt (qa0sqminOf 100 2 (383295/2)) / a0))^2)
      < Real.log ((a0 * (Real.sqrt (qa0sqmaxOf 100 2 (383295/2) Real.pi) / a0))^2) := by
    rw [e1, e2, Real.sq_sqrt hD1pos.le, Real.sq_sqrt hmax_nonneg]
    apply Real.log_lt_log hD1pos
    rw [tblC6_qa0sqmax_pi]
    linarith [hsPpos]
  nlinarith [hx]

end HS

/-- C6 (amended): for every table, onset override, beam energy and row
index, `qmin` does not depend on the collection half-angle, and `qmax`
is monotonically non-decreasing in the angle on `[0, pi]`; but the
integrated `qint[i]` need not be non-decreasing in the angle (see the
counterexample: Simpson/trapezoid quadrature of the extracted row is not
monotone in `qmax` for arbitrary tables, e.g. with negative GOS
entries). -/
theorem C6_qmax_monotone_amended (t : HS.GOSTable) (onset E0 : ℝ) (i : ℕ)
    (th1 th2 : ℝ) (h0 : 0 ≤ th1) (h12 : th1 ≤ th2) (hpi : th2 ≤ Real.pi) :
    (HS.rowKinematics t onset th1 E0 i).1 = (HS.rowKinematics t onset th2 E0 i).1 ∧
    (HS.rowKinematics t onset th1 E0 i).2 ≤ (HS.rowKinematics t onset th2 E0 i).2 := by
  constructor
  · rfl
  · unfold HS.rowKinematics
    dsimp only
    have ha0 : (0:ℝ) < HS.a0 := by unfold HS.a0; norm_num
    rw [div_le_div_iff_of_pos_right ha0]
    apply Real.sqrt_le_sqrt
    unfold HS.qa0sqmaxOf
    apply add_le_add_left
    apply mul_le_mul_of_nonneg_left ?_ (by positivity)
    have hs1 : 0 ≤ Real.sin (th1 / 2) :=
      Real.sin_nonneg_of_nonneg_of_le_pi (by linarith)
        (by linarith [Real.pi_pos])
    have hmono : Real.sin (th1 / 2) ≤ Real.sin (th2 / 2) := by
      apply Real.strictMonoOn_sin.monotoneOn ?_ ?_ (by linarith)
      · exact ⟨by linarith [Real.pi_pos], by linarith⟩
      · exact ⟨by linarith [Real.pi_pos], by linarith⟩
    exact pow_le_pow_left₀ hs1 hmono 2

/-- C6 counterexample: for the concrete one-row table with GOS
identically -1 (onset 40 eV, energy bin 100 eV, beam energy 511.06 keV),
increasing the collection half-angle from 0 to pi (both inside [0, pi])
strictly decreases `qint[0]`: at angle 0 the integration interval is
empty and `qint[0] = 0`, at angle pi the quadrature of the constant -1
row over a nonempty log-q interval is negative. -/
theorem C6_counterexample :
    ((0:ℝ) ≤ 0 ∧ (0:ℝ) ≤ Real.pi ∧ Real.pi ≤ Real.pi) ∧
    (HS.qintScaled HS.tblC6 40 Real.pi 511.06).getD 0 0 <
      (HS.qintScaled HS.tblC6 40 0 511.06).getD 0 0 := by
  refine ⟨⟨le_refl 0, Real.pi_pos.le, le_refl _⟩, ?_⟩
  rw [HS.qintScaled_tblC6_zero]
  unfold HS.qintScaled HS.qintRaw
  simp only [HS.tblC6, List.length_cons, List.length_nil, List.range_succ, List.range_zero, List.nil_append,
    List.map_cons, List.map_nil, List.getD_cons_zero, Nat.lt_irrefl,
    Nat.zero_lt_one, if_true]
  have hscale : (0:ℝ) <
      4 * Real.pi * HS.a0 ^ 2 * HS.R ^ 2 / (100 + (40 - 40)) / HS.TOf 511.06
        * 1 * 10 ^ 28 := by
    rw [HS.TOf_51106]
    unfold HS.a0 HS.R
    positivity
  rw [if_pos (by norm_num : (0:ℕ) < 0 + 1)]
  exact mul_neg_of_neg_of_pos HS.rowIntegral_tblC6_pi_neg hscale

/-- C6 witness: the amended monotonicity statement applied at the
concrete counterexample table with angles 0 and pi. -/
theorem C6_witness :
    ((0:ℝ) ≤ 0 ∧ (0:ℝ) ≤ Real.pi ∧ Real.pi ≤ Real.pi) ∧
    (HS.rowKinematics HS.tblC6 40 0 511.06 0).1 =
      (HS.rowKinematics HS.tblC6 40 Real.pi 511.06 0).1 ∧
    (HS.rowKinematics HS.tblC6 40 0 511.06 0).2 ≤
      (HS.rowKinematics HS.tblC6 40 Real.pi 511.06 0).2 :=
  ⟨⟨le_refl 0, Real.pi_pos.le, le_refl _⟩,
    C6_qmax_monotone_amended HS.tblC6 40 511.06 0 0 Real.pi (le_refl 0)
      Real.pi_pos.le (le_refl _)⟩

namespace HSN

namespace NFloat

variable {K : Type} [LinearOrderedField K]

@[simp] theorem nan_add (x : NFloat K) : nan + x = nan := by cases x <;> rfl

@[simp] theorem add_nan (x : NFloat K) : x + nan = nan := by cases x <;> rfl

@[simp] theorem nan_sub (x : NFloat K) : nan - x = nan := by cases x <;> rfl

@[simp] theorem sub_nan (x : NFloat K) : x - nan = nan := by cases x <;> rfl

@[simp] theorem nan_mul (x : NFloat K) : nan * x = nan := by cases x <;> rfl

@[simp] theorem mul_nan (x : NFloat K) : x * nan = nan := by cases x <;> rfl

@[simp] theorem nan_div (x : NFloat K) : nan / x = nan := by cases x <;> rfl

@[simp] theorem div_nan (x : NFloat K) : x / nan = nan := by cases x <;> rfl

@[simp] theorem ltB_nan_left (x : NFloat K) : ltB nan x = false := by cases x <;> rfl

@[simp] theorem ltB_nan_right (x : NFloat K) : ltB x nan = false := by
  cases x <;> rfl

@[simp] theorem sqrt_nan (f : K → K) : sqrt f (nan : NFloat K) = nan := rfl

@[simp] theorem log_nan (f : K → K) : log f (nan : NFloat K) = nan := rfl

@[simp] theorem sin_nan (f : K → K) : sin f (nan : NFloat K) = nan := rfl

@[simp] theorem fin_add_fin (a b : K) : (fin a : NFloat K) + fin b = fin (a + b) := rfl

@[simp] theorem fin_sub_fin (a b : K) : (fin a : NFloat K) - fin b = fin (a - b) := by
  show add (fin a) (neg (fin b)) = fin (a - b)
  simp [add, neg, sub_eq_add_neg]

@[simp] theorem fin_mul_fin (a b : K) : (fin a : NFloat K) * fin b = fin (a * b) := rfl

theorem fin_div_fin (a b : K) (h : b ≠ 0) :
    (fin a : NFloat K) / fin b = fin (a / b) := by
  show div (fin a) (fin b) = fin (a / b)
  simp [div, h]

@[simp] theorem pow_fin (a : K) (n : ℕ) : (fin a : NFloat K).pow n = fin (a ^ n) := by
  induction n with
  | zero => simp [pow]
  | succ n ih => rw [pow, ih, fin_mul_fin, pow_succ]

@[simp] theorem pow_nan_two : (nan : NFloat K).pow 2 = nan := rfl

theorem sqrt_neg (f : K → K) (a : K) (h : a < 0) :
    sqrt f (fin a : NFloat K) = nan := by
  simp [sqrt, h]

theorem fin_div_zero (a : K) (h : a ≠ 0) :
    (fin a : NFloat K) / fin 0 = inf (decide (a < 0)) := by
  show div (fin a) (fin 0) = inf (decide (a < 0))
  simp [div, h]

theorem negFinB_iff (x : NFloat K) :
    x.negFinB = true ↔ ∃ c, x = fin c ∧ c < 0 := by
  cases x <;> simp [negFinB]

theorem posFinB_iff (x : NFloat K) :
    x.posFinB = true ↔ ∃ c, x = fin c ∧ 0 < c := by
  cases x <;> simp [posFinB]

theorem finB_div_left_inf (s : Bool) (y : NFloat K) :
    ((inf s : NFloat K) / y).finB = false := by
  cases y <;> rfl

theorem finB_mul_left (x y : NFloat K) (h : x.finB = false) :
    (x * y).finB = false := by
  cases x with
  | nan => simp [finB]
  | fin a => simp [finB] at h
  | inf s =>
    cases y with
    | nan => simp [finB]
    | inf t => rfl
    | fin b =>
      show finB (mul (inf s) (fin b)) = false
      by_cases hb : b = 0 <;> simp [mul, hb, finB]

theorem finB_mul_right (x y : NFloat K) (h : y.finB = false) :
    (x * y).finB = false := by
  cases y with
  | nan => simp [finB]
  | fin a => simp [finB] at h
  | inf s =>
    cases x with
    | nan => simp [finB]
    | inf t => rfl
    | fin b =>
      show finB (mul (fin b) (inf s)) = false
      by_cases hb : b = 0 <;> simp [mul, hb, finB]

end NFloat

end HSN

namespace HSN

variable {K : Type} [LinearOrderedField K]

/-- Interpolation at NaN yields NaN: the segment search falls through to
the last segment (NaN comparisons are false) and the segment formula
absorbs NaN. -/
theorem interpSegsN_nan : ∀ ps : List (NFloat K × NFloat K),
    interpSegsN ps NFloat.nan = NFloat.nan
  | [] => rfl
  | [(_, _)] => rfl
  | [(q1, g1), (q2, g2)] => by
    show g1 + (g2 - g1) * (NFloat.nan - q1) / (q2 - q1) = NFloat.nan
    simp
  | (q1, g1) :: (q2, g2) :: p3 :: ps => by
    show (if NFloat.ltB NFloat.nan q2 then g1 + (g2 - g1) * (NFloat.nan - q1) / (q2 - q1)
          else interpSegsN ((q2, g2) :: p3 :: ps) NFloat.nan) = NFloat.nan
    rw [NFloat.ltB_nan_left]
    simp only [Bool.false_eq_true, if_false]
    exact interpSegsN_nan ((q2, g2) :: p3 :: ps)

/-- With a NaN upper bound the interior filter of the extraction is
empty (NaN comparisons are false). -/
theorem filter_ltB_nan (l : List (NFloat K × NFloat K)) (qmin : NFloat K) :
    l.filter (fun p => NFloat.ltB qmin p.1 && NFloat.ltB p.1 NFloat.nan) = [] := by
  rw [List.filter_eq_nil_iff]
  intro p _
  simp

/-- The extraction at a NaN upper bound: the two synthesized endpoints,
the second one NaN. -/
theorem get_qaxis_and_gosN_nanmax (qaxis row : List (NFloat K)) (qmin : NFloat K) :
    get_qaxis_and_gosN qaxis row qmin NFloat.nan =
      ([qmin, NFloat.nan], [interpSegsN (qaxis.zip row) qmin, NFloat.nan]) := by
  unfold get_qaxis_and_gosN
  rw [filter_ltB_nan, interpSegsN_nan]
  rfl

end HSN

namespace HSN

variable {K : Type} [LinearOrderedField K]

/-- Entry `i` of the scaled `qint` array, unfolded. -/
theorem qintN_getD (rsqrt rsin rlog : K → K) (t : NFTable K)
    (onset theta E0 : NFloat K) (i : ℕ) (hi : i < t.energy_axis.length) :
    (qintN rsqrt rsin rlog t onset theta E0).getD i (.fin 0) =
      (if i < t.gos_array.length then rowIntegralN rsqrt rsin rlog t onset theta E0 i
       else .fin 0) *
        (.fin 4 * piN * a0n.pow 2 * Rn.pow 2 /
            (t.energy_axis.getD i .nan + (onset - t.onset_energy)) / TN E0 *
          t.subshell_factor * .fin (10^28)) := by
  unfold qintN
  dsimp only
  rw [List.getD_eq_getElem?_getD, List.getElem?_map, List.getElem?_range hi]
  rfl

end HSN

/-- C5: for every table, parameters and row index at which the computed
`pp^2` is a negative finite value (and `p0^2` a positive finite value),
nothing is raised and nothing is clamped: the negative argument of
`np.sqrt` propagates as NaN into `qa0sqmax`, into `qmax`, and into the
corresponding entry of the returned `qint` array (which the total
embedding still returns). -/
theorem C5_forbidden_row_nan {K : Type} [LinearOrderedField K]
    (rsqrt rsin rlog : K → K) (t : HSN.NFTable K)
    (onset theta E0 : HSN.NFloat K) (i : ℕ)
    (hi : i < t.energy_axis.length) (hgi : i < t.gos_array.length)
    (hpp2 : (HSN.pp2N (t.energy_axis.getD i .nan + (onset - t.onset_energy))
      (HSN.gammaN E0) (HSN.TN E0)).negFinB = true)
    (hp02 : (HSN.p02N (HSN.TN E0)).posFinB = true) :
    HSN.qa0sqmaxN rsqrt rsin (t.energy_axis.getD i .nan + (onset - t.onset_energy))
      (HSN.gammaN E0) (HSN.TN E0) theta = .nan ∧
    HSN.qmaxN rsqrt rsin (t.energy_axis.getD i .nan + (onset - t.onset_energy))
      (HSN.gammaN E0) (HSN.TN E0) theta = .nan ∧
    (HSN.qintN rsqrt rsin rlog t onset theta E0).getD i (.fin 0) = .nan := by
  obtain ⟨c, hc, hcneg⟩ := (HSN.NFloat.negFinB_iff _).mp hpp2
  obtain ⟨d, hd, hdpos⟩ := (HSN.NFloat.posFinB_iff _).mp hp02
  have hsqrt : HSN.NFloat.sqrt rsqrt
      (HSN.p02N (HSN.TN E0) *
        HSN.pp2N (t.energy_axis.getD i .nan + (onset - t.onset_energy))
          (HSN.gammaN E0) (HSN.TN E0)) = .nan := by
    rw [hc, hd, HSN.NFloat.fin_mul_fin]
    exact HSN.NFloat.sqrt_neg rsqrt _ (mul_neg_of_pos_of_neg hdpos hcneg)
  have hmax : HSN.qa0sqmaxN rsqrt rsin
      (t.energy_axis.getD i .nan + (onset - t.onset_energy))
      (HSN.gammaN E0) (HSN.TN E0) theta = .nan := by
    unfold HSN.qa0sqmaxN
    rw [hsqrt]
    simp
  have hqmax : HSN.qmaxN rsqrt rsin
      (t.energy_axis.getD i .nan + (onset - t.onset_energy))
      (HSN.gammaN E0) (HSN.TN E0) theta = .nan := by
    unfold HSN.qmaxN
    rw [hmax]
    simp
  refine ⟨hmax, hqmax, ?_⟩
  rw [HSN.qintN_getD rsqrt rsin rlog t onset theta E0 i hi, if_pos hgi]
  have hrow : HSN.rowIntegralN rsqrt rsin rlog t onset theta E0 i = .nan := by
    unfold HSN.rowIntegralN
    dsimp only
    rw [hqmax, HSN.get_qaxis_and_gosN_nanmax]
    dsimp only
    simp [HSN.simpsN, HSN.trapSegN, HSN.NFloat.pow]
  rw [hrow]
  simp

/-- C10: the final barn-conversion scaling divides by the shifted energy
array with no zero guard: whenever the onset override makes the shifted
energy of some row exactly zero, no exception is raised (the embedding is
total) and the corresponding `qint` entry is non-finite — the division by
zero produces an infinity that propagates (or NaN), whatever `T`, the
subshell factor and the row integral are. -/
theorem C10_zero_shifted_energy_nonfinite {K : Type} [LinearOrderedField K]
    (rsqrt rsin rlog : K → K) (t : HSN.NFTable K)
    (onset theta E0 : HSN.NFloat K) (i : ℕ)
    (hi : i < t.energy_axis.length)
    (hE : t.energy_axis.getD i .nan + (onset - t.onset_energy) = .fin 0) :
    ((HSN.qintN rsqrt rsin rlog t onset theta E0).getD i (.fin 0)).finB = false := by
  rw [HSN.qintN_getD rsqrt rsin rlog t onset theta E0 i hi, hE]
  apply HSN.NFloat.finB_mul_right
  apply HSN.NFloat.finB_mul_left
  apply HSN.NFloat.finB_mul_left
  have hnum : (.fin 4 * HSN.piN * HSN.a0n.pow 2 * HSN.Rn.pow 2 : HSN.NFloat K) =
      .fin (4 * (3141592653589793 / 10^15) *
        (529177210903 / 10^22)^2 * (13605693122994 / 10^12)^2) := by
    simp [HSN.piN, HSN.a0n, HSN.Rn]
  have hpos : (0:K) < 4 * (3141592653589793 / 10^15) *
      (529177210903 / 10^22)^2 * (13605693122994 / 10^12)^2 := by positivity
  rw [hnum, HSN.NFloat.fin_div_zero _ (ne_of_gt hpos)]
  exact HSN.NFloat.finB_div_left_inf _ _

/-- C10 witness: the theorem applied at the concrete table with onset
100 eV, onset override 0 and beam energy 100 keV — the single shifted
energy is exactly zero and the scaled entry is non-finite. -/
theorem C10_witness :
    (0 < (HSN.tblC10.energy_axis).length ∧
      HSN.tblC10.energy_axis.getD 0 .nan + (.fin 0 - HSN.tblC10.onset_energy) =
        (.fin 0 : HSN.NFloat ℚ)) ∧
    ((HSN.qintN id id id HSN.tblC10 (.fin 0) (.fin 0) (.fin 100)).getD 0
      (.fin 0)).finB = false :=
  ⟨⟨by norm_num [HSN.tblC10], by norm_num [HSN.tblC10]⟩,
    C10_zero_shifted_energy_nonfinite id id id HSN.tblC10 (.fin 0) (.fin 0)
      (.fin 100) 0 (by norm_num [HSN.tblC10]) (by norm_num [HSN.tblC10])⟩

/-- C5 witness: the theorem applied at the concrete table whose single
energy bin (10^6 eV) cannot be reached by a 10 keV beam: `pp^2` is
negative finite, `p0^2` positive finite, and the NaN conclusion follows. -/
theorem C5_witness :
    (0 < (HSN.tblC5.energy_axis).length ∧ 0 < (HSN.tblC5.gos_array).length ∧
      (HSN.pp2N (HSN.tblC5.energy_axis.getD 0 .nan +
          (.fin 1000000 - HSN.tblC5.onset_energy))
        (HSN.gammaN (.fin 10)) (HSN.TN (.fin 10))).negFinB = true ∧
      (HSN.p02N (HSN.TN (.fin 10)) : HSN.NFloat ℚ).posFinB = true) ∧
    (HSN.qa0sqmaxN id id (HSN.tblC5.energy_axis.getD 0 .nan +
        (.fin 1000000 - HSN.tblC5.onset_energy))
      (HSN.gammaN (.fin 10)) (HSN.TN (.fin 10)) (.fin 0) = .nan ∧
    HSN.qmaxN id id (HSN.tblC5.energy_axis.getD 0 .nan +
        (.fin 1000000 - HSN.tblC5.onset_energy))
      (HSN.gammaN (.fin 10)) (HSN.TN (.fin 10)) (.fin 0) = .nan ∧
    (HSN.qintN id id id HSN.tblC5 (.fin 1000000) (.fin 0) (.fin 10)).getD 0
      (.fin 0) = .nan) :=
  ⟨⟨by norm_num [HSN.tblC5], by norm_num [HSN.tblC5],
    by norm_num [HSN.tblC5, HSN.pp2N, HSN.p02N, HSN.gammaN, HSN.TN, HSN.Rn,
      HSN.NFloat.fin_div_fin, HSN.NFloat.negFinB],
    by norm_num [HSN.p02N, HSN.gammaN, HSN.TN, HSN.Rn,
      HSN.NFloat.fin_div_fin, HSN.NFloat.posFinB]⟩,
    C5_forbidden_row_nan id id id HSN.tblC5 (.fin 1000000) (.fin 0) (.fin 10) 0
      (by norm_num [HSN.tblC5]) (by norm_num [HSN.tblC5])
      (by norm_num [HSN.tblC5, HSN.pp2N, HSN.p02N, HSN.gammaN, HSN.TN, HSN.Rn,
        HSN.NFloat.fin_div_fin, HSN.NFloat.negFinB])
      (by norm_num [HSN.p02N, HSN.gammaN, HSN.TN, HSN.Rn,
        HSN.NFloat.fin_div_fin, HSN.NFloat.posFinB])⟩
